import Mathlib

/-!
Shallow embedding of the zeplo-sdk transport client (src/client.ts).

The embedding models:
- JavaScript runtime values relevant to the client (`Json`, plus `undef`
  for `undefined`),
- the default serializer `JSON` (`jsonParse` / `jsonStringify`),
- JavaScript's `parseFloat` (as an `Option Rat`, `none` standing for `NaN`
  or infinite results, both of which make `new Date(x * 1000)` invalid),
- the `respondTo` callback handler of `ZeploClient`,
- the `enqueue` request construction and response handling of `ZeploClient`,
- the resolution of `apiUrl` from explicit option, environment variable and
  `mode` (the default-parameter expression of `ZeploClient`).

JavaScript numbers that only ever flow through template literals as integers
(delay seconds, retry count/interval/exponent, `Date.valueOf()`) are modelled
as `Int`; numbers subject to arithmetic (`parseFloat` results) as `Rat`.
-/

namespace Zeplo

/-- JavaScript value model: JSON values plus `undefined`. Header maps and raw
bodies are built from these. -/
inductive Json where
  | null
  | undef
  | bool (b : Bool)
  | num (q : Rat)
  | str (s : String)
  | arr (elems : List Json)
  | obj (fields : List (String × Json))

/-- Digits to the natural number they denote in base 10. -/
def digitsToNat (ds : List Char) : Nat :=
  ds.foldl (fun a c => 10 * a + (c.toNat - 48)) 0

/-- Builds the rational denoted by sign, integer digits, fraction digits and a
decimal exponent: `(-1)^neg * ids.fds * 10^exp`. -/
def ratFromParts (neg : Bool) (ids fds : List Char) (exp : Int) : Rat :=
  let mant : Int := (digitsToNat ids * 10 ^ fds.length + digitsToNat fds : Nat)
  let expAdj : Int := exp - fds.length
  mkRat ((if neg then -mant else mant) * 10 ^ expAdj.toNat) (10 ^ (-expAdj).toNat)

/-- Whitespace skipped by JavaScript's `parseFloat`. -/
def jsWhitespace (c : Char) : Bool :=
  c == ' ' || c == '\t' || c == '\n' || c == '\r' || c == '\x0b' || c == '\x0c'

/-- Model of JavaScript's `parseFloat`: parses the longest numeric prefix after
leading whitespace; `none` models `NaN` (no numeric prefix) and also the
`Infinity` literal, since every use here immediately feeds the result into
`new Date(x * 1000)`, which is an Invalid Date for `NaN` and `±Infinity` alike. -/
def parseFloat (s : String) : Option Rat :=
  let cs := s.toList.dropWhile jsWhitespace
  let signAndRest : Bool × List Char :=
    match cs with
    | '-' :: r => (true, r)
    | '+' :: r => (false, r)
    | _ => (false, cs)
  let (ids, cs2) := signAndRest.2.span Char.isDigit
  let fracAndRest : List Char × List Char :=
    match cs2 with
    | '.' :: r => r.span Char.isDigit
    | _ => ([], cs2)
  if ids.isEmpty && fracAndRest.1.isEmpty then none
  else
    let exp : Int :=
      match fracAndRest.2 with
      | e :: r =>
        if e == 'e' || e == 'E' then
          let esignAndRest : Int × List Char :=
            match r with
            | '-' :: rr => (-1, rr)
            | '+' :: rr => (1, rr)
            | _ => (1, r)
          let (eds, _) := esignAndRest.2.span Char.isDigit
          if eds.isEmpty then 0 else esignAndRest.1 * (digitsToNat eds : Int)
        else 0
      | [] => 0
    some (ratFromParts signAndRest.1 ids fracAndRest.1 exp)

/-- Whitespace accepted between JSON tokens. -/
def jsonWs (c : Char) : Bool :=
  c == ' ' || c == '\n' || c == '\r' || c == '\t'

/-- Hexadecimal digit value, if any. -/
def hexVal (c : Char) : Option Nat :=
  if '0' ≤ c ∧ c ≤ '9' then some (c.toNat - 48)
  else if 'a' ≤ c ∧ c ≤ 'f' then some (c.toNat - 87)
  else if 'A' ≤ c ∧ c ≤ 'F' then some (c.toNat - 55)
  else none

/-- Parses the body of a JSON string literal (after the opening quote), up to
and including the closing quote. Returns the decoded characters and the rest. -/
def parseStringBody : List Char → Except String (List Char × List Char)
  | [] => .error "unterminated string literal"
  | '"' :: rest => .ok ([], rest)
  | '\\' :: 'u' :: a :: b :: c :: d :: rest =>
    match hexVal a, hexVal b, hexVal c, hexVal d with
    | some ha, some hb, some hc, some hd =>
      (parseStringBody rest).map fun p =>
        (Char.ofNat (((ha * 16 + hb) * 16 + hc) * 16 + hd) :: p.1, p.2)
    | _, _, _, _ => .error "invalid unicode escape"
  | '\\' :: e :: rest =>
    match
      (match e with
       | '"' => some '"'
       | '\\' => some '\\'
       | '/' => some '/'
       | 'b' => some (Char.ofNat 8)
       | 'f' => some (Char.ofNat 12)
       | 'n' => some '\n'
       | 'r' => some '\r'
       | 't' => some '\t'
       | _ => none) with
    | some ch => (parseStringBody rest).map fun p => (ch :: p.1, p.2)
    | none => .error "invalid escape"
  | c :: rest => (parseStringBody rest).map fun p => (c :: p.1, p.2)

/-- Parses a JSON number from the front of the input. -/
def parseNumber (cs : List Char) : Except String (Rat × List Char) :=
  let signAndRest : Bool × List Char :=
    match cs with
    | '-' :: r => (true, r)
    | _ => (false, cs)
  let (ids, cs2) := signAndRest.2.span Char.isDigit
  if ids.isEmpty then .error "invalid number"
  else
    let fracAndRest : List Char × List Char :=
      match cs2 with
      | '.' :: r => r.span Char.isDigit
      | _ => ([], cs2)
    if cs2 ≠ fracAndRest.2 ∧ fracAndRest.1.isEmpty then .error "invalid number fraction"
    else
      match fracAndRest.2 with
      | e :: r =>
        if e == 'e' || e == 'E' then
          let esignAndRest : Int × List Char :=
            match r with
            | '-' :: rr => (-1, rr)
            | '+' :: rr => (1, rr)
            | _ => (1, r)
          let (eds, rest) := esignAndRest.2.span Char.isDigit
          if eds.isEmpty then .error "invalid number exponent"
          else
            .ok (ratFromParts signAndRest.1 ids fracAndRest.1
                  (esignAndRest.1 * (digitsToNat eds : Int)), rest)
        else .ok (ratFromParts signAndRest.1 ids fracAndRest.1 0, fracAndRest.2)
      | [] => .ok (ratFromParts signAndRest.1 ids fracAndRest.1 0, [])

mutual

/-- Fuel-driven JSON value parser (model of `JSON.parse`). -/
def parseVal : Nat → List Char → Except String (Json × List Char)
  | 0, _ => .error "fuel exhausted"
  | Nat.succ fuel, cs =>
    match cs.dropWhile jsonWs with
    | [] => .error "unexpected end of input"
    | '"' :: rest => (parseStringBody rest).map fun p => (.str (String.mk p.1), p.2)
    | '{' :: rest =>
      (match rest.dropWhile jsonWs with
       | '}' :: rem => .ok (.obj [], rem)
       | _ => parseMembers fuel rest [])
    | '[' :: rest =>
      (match rest.dropWhile jsonWs with
       | ']' :: rem => .ok (.arr [], rem)
       | _ => parseElems fuel rest [])
    | 't' :: 'r' :: 'u' :: 'e' :: rest => .ok (.bool true, rest)
    | 'f' :: 'a' :: 'l' :: 's' :: 'e' :: rest => .ok (.bool false, rest)
    | 'n' :: 'u' :: 'l' :: 'l' :: rest => .ok (.null, rest)
    | other => (parseNumber other).map fun p => (.num p.1, p.2)

/-- Parses the members of a JSON object after the opening brace. Note
`JSON.parse` keeps the last of duplicate keys; duplicate keys do not occur in
any input considered here. -/
def parseMembers : Nat → List Char → List (String × Json) → Except String (Json × List Char)
  | 0, _, _ => .error "fuel exhausted"
  | Nat.succ fuel, cs, acc =>
    match cs.dropWhile jsonWs with
    | '"' :: rest =>
      (match parseStringBody rest with
       | .error e => .error e
       | .ok (key, rem) =>
         match rem.dropWhile jsonWs with
         | ':' :: rem2 =>
           (match parseVal fuel rem2 with
            | .error e => .error e
            | .ok (v, rem3) =>
              match rem3.dropWhile jsonWs with
              | ',' :: rem4 => parseMembers fuel rem4 (acc ++ [(String.mk key, v)])
              | '}' :: rem4 => .ok (.obj (acc ++ [(String.mk key, v)]), rem4)
              | _ => .error "expected comma or closing brace")
         | _ => .error "expected colon")
    | _ => .error "expected string key"

/-- Parses the elements of a JSON array after the opening bracket. -/
def parseElems : Nat → List Char → List Json → Except String (Json × List Char)
  | 0, _, _ => .error "fuel exhausted"
  | Nat.succ fuel, cs, acc =>
    match parseVal fuel cs with
    | .error e => .error e
    | .ok (v, rem) =>
      match rem.dropWhile jsonWs with
      | ',' :: rem2 => parseElems fuel rem2 (acc ++ [v])
      | ']' :: rem2 => .ok (.arr (acc ++ [v]), rem2)
      | _ => .error "expected comma or closing bracket"

end

/-- Model of `JSON.parse`: the default serializer's `parse`. -/
def jsonParse (s : String) : Except String Json :=
  match parseVal (s.length + 1) s.toList with
  | .error e => .error e
  | .ok (v, rem) =>
    if (rem.dropWhile jsonWs).isEmpty then .ok v else .error "trailing characters"

/-- Escapes one character for a JSON string literal, as `JSON.stringify` does. -/
def escapeChar (c : Char) : String :=
  if c = '"' then "\\\""
  else if c = '\\' then "\\\\"
  else if c = '\n' then "\\n"
  else if c = '\r' then "\\r"
  else if c = '\t' then "\\t"
  else if c.toNat = 8 then "\\b"
  else if c.toNat = 12 then "\\f"
  else if c.toNat < 32 then
    "\\u00" ++ String.mk
      [if c.toNat / 16 < 10 then Char.ofNat (48 + c.toNat / 16) else Char.ofNat (87 + c.toNat / 16),
       if c.toNat % 16 < 10 then Char.ofNat (48 + c.toNat % 16) else Char.ofNat (87 + c.toNat % 16)]
  else Char.toString c

/-- Escaped JSON string literal contents. -/
def escapeString (s : String) : String :=
  String.join (s.toList.map escapeChar)

/-- Smallest power of ten the denominator divides, if any below 40. Every
finite JavaScript number is a dyadic rational, whose denominator divides a
power of ten, so for numbers originating from JavaScript this always succeeds. -/
def findPow10 (den : Nat) : Option Nat :=
  (List.range 40).find? (fun k => 10 ^ k % den = 0)

/-- Pads a numeral with leading zeros to length `k`. -/
def padZeros (s : String) (k : Nat) : String :=
  String.mk (List.replicate (k - s.length) '0') ++ s

/-- Drops trailing zero digits. -/
def stripZerosRight (s : String) : String :=
  String.mk (s.toList.reverse.dropWhile (fun c => c == '0')).reverse

/-- Decimal rendering of a rational, as JavaScript renders the corresponding
number (exact for integers and finite decimals, which covers every value the
client ever stringifies). -/
def ratToDecimalString (q : Rat) : String :=
  if q.den = 1 then toString q.num
  else
    match findPow10 q.den with
    | some k =>
      let scaled := q.num.natAbs * (10 ^ k / q.den)
      (if q.num < 0 then "-" else "") ++ toString (scaled / 10 ^ k) ++ "." ++
        stripZerosRight (padZeros (toString (scaled % 10 ^ k)) k)
    | none => toString q.num ++ "/" ++ toString q.den

mutual

/-- Model of `JSON.stringify`: the default serializer's `stringify`.
`undefined` at the top level actually makes `JSON.stringify` return
`undefined`; that case never occurs in the scenarios modelled here and is
rendered as `"null"`. -/
def jsonStringify : Json → String
  | .null => "null"
  | .undef => "null"
  | .bool b => if b then "true" else "false"
  | .num q => ratToDecimalString q
  | .str s => "\"" ++ escapeString s ++ "\""
  | .arr l => "[" ++ stringifyElems l ++ "]"
  | .obj l => "\x7b" ++ stringifyMembers l ++ "\x7d"

/-- Comma-separated stringified array elements. -/
def stringifyElems : List Json → String
  | [] => ""
  | [x] => jsonStringify x
  | x :: y :: rest => jsonStringify x ++ "," ++ stringifyElems (y :: rest)

/-- Comma-separated stringified object members. -/
def stringifyMembers : List (String × Json) → String
  | [] => ""
  | [kv] => "\"" ++ escapeString kv.1 ++ "\":" ++ jsonStringify kv.2
  | kv :: kv2 :: rest =>
    "\"" ++ escapeString kv.1 ++ "\":" ++ jsonStringify kv.2 ++ "," ++
      stringifyMembers (kv2 :: rest)

end

/-- The rational denoted by a JavaScript integer literal (kept in `mkRat`
form so that kernel evaluation is direct). -/
def ratOfInt (n : Int) : Rat := mkRat n 1

/-- Multiplication of a rational by an integer, in `mkRat` form (equal to
`q * n`; stated this way so that the kernel can evaluate it directly). -/
def ratMulInt (q : Rat) (n : Int) : Rat := mkRat (q.num * n) q.den

/-- Metadata handed to the user handler by `respondTo`: the job id and the
start time `new Date(Number.parseFloat(start) * 1000)`, recorded as epoch
milliseconds (`none` = Invalid Date). -/
structure Meta where
  jobId : String
  startMs : Option Rat
deriving DecidableEq

/-- The body of a `respondTo` result: either the stringified error (status 500)
or the direct-mode echo object `\x7bid: jobId\x7d` (status 200). -/
inductive RespBody where
  | errText (e : String)
  | idObj (id : String)
deriving DecidableEq

/-- Observable outcome of one `respondTo` call: the returned response, the
handler invocations it performed (payload and metadata), and the errors it
logged via `console.error`. -/
structure RespondResult (Payload : Type) where
  status : Nat
  body : RespBody
  handlerCalls : List (Payload × Meta)
  logs : List String

/-- The capabilities `respondTo` closes over: the encryptor's `decrypt`
(pass-through when no secret is configured), the serializer's `parse`, the
schema's `parse` (identity cast by default) and the user handler. -/
structure RespondConfig (Payload : Type) where
  decrypt : String → Except String String
  serialParse : String → Except String Json
  schemaParse : Json → Except String Payload
  handler : Payload → Meta → Except String Unit

/-- The `z.string()` check a single header value must pass inside
`z.object(\x7b"x-zeplo-id": z.string(), "x-zeplo-start": z.string()\x7d).parse`. -/
def headerString (headers : List (String × Json)) (key : String) : Except String String :=
  match headers.lookup key with
  | some (.str s) => .ok s
  | _ => .error ("invalid header: " ++ key)

/-- Model of `ZeploClient(...).respondTo(body, headers)`: validates the
`x-zeplo-id` and `x-zeplo-start` headers, checks the raw body is a string,
decrypts, deserializes, schema-validates, runs the handler, and converts any
failure into a logged 500 response. -/
def respondTo {Payload : Type} (cfg : RespondConfig Payload) (body : Json)
    (headers : List (String × Json)) : RespondResult Payload :=
  match headerString headers "x-zeplo-id" with
  | .error e => ⟨500, .errText e, [], [e]⟩
  | .ok jobId =>
    match headerString headers "x-zeplo-start" with
    | .error e => ⟨500, .errText e, [], [e]⟩
    | .ok start =>
      match (match body with
             | .str s => Except.ok s
             | _ => Except.error "body is not a string") with
      | .error e => ⟨500, .errText e, [], [e]⟩
      | .ok bodyStr =>
        match cfg.decrypt bodyStr with
        | .error e => ⟨500, .errText e, [], [e]⟩
        | .ok plain =>
          match cfg.serialParse plain with
          | .error e => ⟨500, .errText e, [], [e]⟩
          | .ok v =>
            match cfg.schemaParse v with
            | .error e => ⟨500, .errText e, [], [e]⟩
            | .ok p =>
              let meta : Meta := ⟨jobId, (parseFloat start).map (fun q => ratMulInt q 1000)⟩
              match cfg.handler p meta with
              | .error e => ⟨500, .errText e, [(p, meta)], [e]⟩
              | .ok _ => ⟨200, .idObj jobId, [(p, meta)], []⟩

/-- The `mode` option of `ZeploClient`. -/
inductive Mode where
  | production
  | devServer
  | direct
deriving DecidableEq

/-- The `delay` option: a plain number of seconds or a `Date`
(carried as its `valueOf()`, epoch milliseconds). -/
inductive Delay where
  | secs (n : Int)
  | untilDate (epochMs : Int)
deriving DecidableEq

/-- The `backoff` member of the `retry` option. The string `"immediate"` and
the object `\x7bapproach: "immediate"\x7d` are distinct source-level values that
serialize identically. -/
inductive Backoff where
  | immediateStr
  | immediateApproach
  | fixed (interval : Int)
  | exponential (exponent : Int)
deriving DecidableEq

/-- The `retry` option: a bare count or `\x7bcount, backoff?\x7d`. -/
inductive Retry where
  | num (n : Int)
  | obj (count : Int) (backoff : Option Backoff)
deriving DecidableEq

/-- The pipe-delimited tail of a retry serialization after the count. -/
def backoffString : Backoff → String
  | .immediateStr => "immediate"
  | .immediateApproach => "immediate"
  | .fixed i => "fixed|" ++ toString i
  | .exponential e => "exponential|" ++ toString e

/-- The `_retry` query value computed in `enqueue` (the template-literal
expression of lines 177–189 of client.ts). -/
def serializeRetry : Retry → String
  | .num n => toString n
  | .obj count none => toString count
  | .obj count (some b) => toString count ++ "|" ++ backoffString b

/-- The `_trace` entry of the query object: dropped when `trace` is absent or
empty (`!trace`). -/
def traceParams : Option String → List (String × String)
  | none => []
  | some t => if t = "" then [] else [("_trace", t)]

/-- The delay entry of the query object: dropped when `delay` is absent or the
falsy number `0` (`!delay`); a `Date` is always truthy and yields
`_delay_until=<valueOf()>`. -/
def delayParams : Option Delay → List (String × String)
  | none => []
  | some (.secs n) => if n = 0 then [] else [("_delay", toString n)]
  | some (.untilDate ms) => [("_delay_until", toString ms)]

/-- The `_retry` entry of the query object: dropped when `retry` is absent or
the falsy number `0` (`!retry`); a retry object is always truthy. -/
def retryParams : Option Retry → List (String × String)
  | none => []
  | some (.num n) => if n = 0 then [] else [("_retry", toString n)]
  | some (.obj c b) => [("_retry", serializeRetry (.obj c b))]

/-- The query parameters of the enqueue request, in the order the source's
object literal lists them. -/
def queryParams (env : String) (trace : Option String) (delay : Option Delay)
    (retry : Option Retry) : List (String × String) :=
  [("_env", env)] ++ traceParams trace ++ delayParams delay ++ retryParams retry

/-- JavaScript `Array.prototype.join("/")`. -/
def joinSlash : List String → String
  | [] => ""
  | [s] => s
  | s :: t :: rest => s ++ "/" ++ joinSlash (t :: rest)

/-- JavaScript `.filter(Boolean)` on strings: keeps the non-empty ones
(an absent `baseUrl` is passed in as `""`, which is equally falsy). -/
def nonEmptySegs (l : List String) : List String :=
  l.filter (fun s => s != "")

/-- The pre-query target URL of `enqueue`, line 161 of client.ts:
the non-empty members of `[apiUrl, baseUrl]` joined with `/`, then a `/` and
the route, unconditionally. -/
def joinUrl (apiUrl : String) (baseUrl : Option String) (route : String) : String :=
  joinSlash (nonEmptySegs [apiUrl, baseUrl.getD ""]) ++ "/" ++ route

/-- Modelled from the spec's words for the URL computation (claim C3):
"joining, with `/`, the non-empty members of `[apiUrl, baseUrl, route]` in
order, omitting empty segments". Kept distinct from `joinUrl`, which follows
the source, so the two can be compared. -/
def specJoinUrl (apiUrl : String) (baseUrl : Option String) (route : String) : String :=
  joinSlash (nonEmptySegs [apiUrl, baseUrl.getD "", route])

/-- The default-parameter expression resolving `apiUrl` in `ZeploClient`
(lines 56–61 of client.ts): explicit option, else `ZEPLO_API_URL`, else a
default fully determined by `mode`. -/
def resolveApiUrl (explicit : Option String) (envVar : Option String) (mode : Mode) : String :=
  match explicit with
  | some s => s
  | none =>
    match envVar with
    | some v => v
    | none =>
      match mode with
      | .direct => ""
      | .devServer => "http://localhost:4747"
      | .production => "https://zeplo.to"

/-- Fractional digits of `nowMs / 1000` as JavaScript prints them. -/
def fracString (r : Nat) : String :=
  let padded := (if r < 10 then "00" else if r < 100 then "0" else "") ++ toString r
  String.mk (padded.toList.reverse.dropWhile (fun c => c == '0')).reverse

/-- JavaScript rendering of `Date.now() / 1000` (`Date.now()` is a
nonnegative integer count of milliseconds). -/
def msDiv1000String (nowMs : Nat) : String :=
  if nowMs % 1000 = 0 then toString (nowMs / 1000)
  else toString (nowMs / 1000) ++ "." ++ fracString (nowMs % 1000)

/-- The headers object of the enqueue request (lines 197–204 of client.ts):
in direct mode the synthetic identity headers, otherwise the token header when
a truthy token is configured, otherwise nothing. `uuid` stands for the fresh
`v4()` value and `nowMs` for `Date.now()`. -/
def enqueueHeaders (mode : Mode) (token : Option String) (uuid : String)
    (nowMs : Nat) : List (String × String) :=
  match mode with
  | .direct =>
    [("X-Zeplo-Id", uuid ++ "-iow"), ("X-Zeplo-Start", msDiv1000String nowMs)]
  | _ =>
    match token with
    | none => []
    | some t => if t = "" then [] else [("X-Zeplo-Token", t)]

/-- Characters `URLSearchParams` leaves unescaped. -/
def urlUnreserved (c : Char) : Bool :=
  c.isAlphanum || c == '*' || c == '-' || c == '.' || c == '_'

/-- Percent-encoding of one character as `URLSearchParams.toString` performs
it (UTF-8 expansion of non-ASCII characters is out of the model's scope; no
modelled scenario produces one). -/
def percentEncodeChar (c : Char) : String :=
  if urlUnreserved c then Char.toString c
  else if c == ' ' then "+"
  else if c.toNat < 128 then
    "%" ++ String.mk
      [if c.toNat / 16 < 10 then Char.ofNat (48 + c.toNat / 16) else Char.ofNat (55 + c.toNat / 16),
       if c.toNat % 16 < 10 then Char.ofNat (48 + c.toNat % 16) else Char.ofNat (55 + c.toNat % 16)]
  else Char.toString c

/-- `URLSearchParams.toString()` over the query object. -/
def formEncode (params : List (String × String)) : String :=
  String.intercalate "&"
    (params.map fun kv =>
      String.join (kv.1.toList.map percentEncodeChar) ++ "=" ++
        String.join (kv.2.toList.map percentEncodeChar))

/-- The configuration `enqueue` closes over after `ZeploClient` resolves its
options: URL pieces, environment tag, mode, token, encryption secret, declared
defaults, serializer `stringify`, and the encryptor's `encrypt` (used only when
a truthy secret is configured). -/
structure EnqueueConfig (Payload : Type) where
  apiUrl : String
  baseUrl : Option String
  route : String
  env : String
  mode : Mode
  token : Option String
  encryptionSecret : Option String
  defaultDelay : Option Delay
  defaultRetry : Option Retry
  stringify : Payload → String
  encrypt : String → String

/-- Per-call options of `enqueue`. -/
structure CallOptions where
  trace : Option String
  delay : Option Delay
  retry : Option Retry

/-- The single `fetch` request `enqueue` issues. -/
structure Request where
  url : String
  method : String
  cache : String
  credentials : String
  body : String
  headers : List (String × String)

/-- Everything observable about one `enqueue` invocation before the response
arrives: the pre-query `url` constant, the `stringifiedPayload` constant, the
query parameters, the request, and the list of all fetches issued. -/
structure EnqueueCall where
  url : String
  stringifiedPayload : String
  params : List (String × String)
  request : Request
  requests : List Request

/-- The encryptor selection of lines 138–143 of client.ts: pass-through unless
a truthy (non-empty) secret is configured. -/
def encryptorEncrypt {Payload : Type} (cfg : EnqueueConfig Payload) (input : String) : String :=
  match cfg.encryptionSecret with
  | none => input
  | some s => if s = "" then input else cfg.encrypt input

/-- Model of `ZeploClient(...).enqueue(payload, opts)` up to the `fetch` call
(lines 146–206 of client.ts). `uuid` stands for the fresh `v4()` value and
`nowMs` for `Date.now()`, both only used in direct mode. -/
def enqueue {Payload : Type} (cfg : EnqueueConfig Payload) (payload : Payload)
    (opts : CallOptions) (uuid : String) (nowMs : Nat) : EnqueueCall :=
  let delay := opts.delay <|> cfg.defaultDelay
  let retry := opts.retry <|> cfg.defaultRetry
  let url := joinUrl cfg.apiUrl cfg.baseUrl cfg.route
  let stringifiedPayload := cfg.stringify payload
  let params := queryParams cfg.env opts.trace delay retry
  let req : Request :=
    ⟨url ++ "?" ++ formEncode params, "POST", "no-store", "omit",
      encryptorEncrypt cfg stringifiedPayload,
      enqueueHeaders cfg.mode cfg.token uuid nowMs⟩
  ⟨url, stringifiedPayload, params, req, [req]⟩

/-- The `fetch` response as `enqueue` consumes it: its status, its body text,
and the outcome of `res.json()`. -/
structure FetchResponse where
  status : Nat
  text : String
  json : Except String Json

/-- `z.object(\x7bid: z.string()\x7d).parse` on the response JSON: requires an
object with a string `id` field (extra fields are stripped). -/
def parseIdObject (j : Json) : Except String String :=
  match j with
  | .obj fields =>
    match fields.lookup "id" with
    | some (.str i) => .ok i
    | _ => .error "response id is not a string"
  | _ => .error "response is not an object"

/-- Model of the response handling of `enqueue` (lines 208–214 of client.ts):
throw on status ≥ 400 with a message carrying the serialized payload, the
pre-query URL and the body text; otherwise parse and validate
`\x7bid: string\x7d`. Errors propagate to the caller uncaught. -/
def enqueueRespond (call : EnqueueCall) (res : FetchResponse) : Except String String :=
  if 400 ≤ res.status then
    .error ("Unexpected response while trying to enqueue \"" ++ call.stringifiedPayload ++
      "\" to " ++ call.url ++ ": " ++ res.text)
  else
    match res.json with
    | .error e => .error e
    | .ok j => parseIdObject j

/-- Whether an outbound header map carries the `X-Zeplo-Token` header. -/
def hasTokenHeader (hs : List (String × String)) : Bool :=
  (hs.lookup "X-Zeplo-Token").isSome

/-- Whether an outbound header map carries both direct-mode identity headers. -/
def hasDirectHeaders (hs : List (String × String)) : Bool :=
  (hs.lookup "X-Zeplo-Id").isSome && (hs.lookup "X-Zeplo-Start").isSome

/-- Substring containment on strings. -/
def containsStr (s sub : String) : Prop :=
  ∃ a b, s = a ++ sub ++ b

/-- `respondTo` configuration with every default strategy of `ZeploClient`:
pass-through decryption (no secret), the `JSON` serializer, the identity-cast
schema, and a handler that resolves — the configuration of the repository's
round-trip test. -/
def jsonCfg : RespondConfig Json :=
  ⟨fun s => .ok s, jsonParse, fun j => .ok j, fun _ _ => .ok ()⟩

/-- The inbound headers of the repository's round-trip test. -/
def headersRT : List (String × Json) :=
  [("x-zeplo-id", .str "foo"), ("x-zeplo-start", .str "1970-01-01T00:32:50.000Z")]

/-- The inbound raw body of the round-trip test: `stringify(\x7bfoo:"bar"\x7d)`. -/
def bodyRT : Json := .str "\x7b\"foo\":\"bar\"\x7d"

/-- The default enqueue configuration of the repository's test suite:
production mode, no token, no secret, the `JSON` serializer, env `"test"`. -/
def cfgW : EnqueueConfig Json :=
  ⟨"https://zeplo.to", none, "route", "test", .production, none, none, none, none,
    jsonStringify, fun s => s⟩

/-- The test payload `\x7bfoo: "bar"\x7d`. -/
def payloadW : Json := .obj [("foo", .str "bar")]

/-- Empty per-call options. -/
def noOpts : CallOptions := ⟨none, none, none⟩

/-- The 400-status response of the repository's "throws error when zeplo 400s"
test. -/
def resW400 : FetchResponse := ⟨400, "res.text", .ok .null⟩

/-- The success response of the repository's test suite: JSON `\x7bid: "foo"\x7d`. -/
def resWOK : FetchResponse := ⟨200, "res.text", .ok (.obj [("id", .str "foo")])⟩

theorem ratMulInt_eq (q : Rat) (n : Int) : ratMulInt q n = q * n := by
  rw [ratMulInt, Rat.mkRat_eq_div, Int.cast_mul]
  conv_rhs => rw [← Rat.num_div_den q]
  ring

theorem strAppendAssoc (a b c : String) : a ++ b ++ c = a ++ (b ++ c) := by
  apply String.ext
  simp [String.data_append, List.append_assoc]

theorem strAppendEmpty (a : String) : a ++ "" = a := by
  apply String.ext
  simp [String.data_append]

theorem headerString_ok {headers : List (String × Json)} {k s : String}
    (h : headerString headers k = Except.ok s) :
    headers.lookup k = some (Json.str s) := by
  unfold headerString at h
  rcases hl : headers.lookup k with _ | v
  · rw [hl] at h; cases h
  · rw [hl] at h
    cases v <;> simp_all

/-- Claim C1: for every raw body and raw headers, `respondTo` is total and
returns either a 500 response whose body is the stringified error (which is
also logged), or a 200 response whose body is `\x7bid: jobId\x7d` with the job id
taken from the `x-zeplo-id` header. -/
theorem respondTo_never_throws {Payload : Type} (cfg : RespondConfig Payload)
    (body : Json) (headers : List (String × Json)) :
    ((respondTo cfg body headers).status = 500
      ∧ ∃ e, (respondTo cfg body headers).body = RespBody.errText e
           ∧ (respondTo cfg body headers).logs = [e])
    ∨ ((respondTo cfg body headers).status = 200
      ∧ ∃ jid, headers.lookup "x-zeplo-id" = some (Json.str jid)
           ∧ (respondTo cfg body headers).body = RespBody.idObj jid
           ∧ (respondTo cfg body headers).logs = []) := by
  rcases h1 : headerString headers "x-zeplo-id" with e | jid <;>
    simp only [respondTo, h1]
  · exact Or.inl ⟨by simp, e, by simp, by simp⟩
  · rcases h2 : headerString headers "x-zeplo-start" with e | start <;> simp only [h2]
    · exact Or.inl ⟨by simp, e, by simp, by simp⟩
    · rcases h3 : (match body with
        | Json.str s => Except.ok s
        | _ => Except.error "body is not a string") with e | bodyStr <;> simp only [h3]
      · exact Or.inl ⟨by simp, e, by simp, by simp⟩
      · rcases h4 : cfg.decrypt bodyStr with e | plain <;> simp only [h4]
        · exact Or.inl ⟨by simp, e, by simp, by simp⟩
        · rcases h5 : cfg.serialParse plain with e | v <;> simp only [h5]
          · exact Or.inl ⟨by simp, e, by simp, by simp⟩
          · rcases h6 : cfg.schemaParse v with e | p <;> simp only [h6]
            · exact Or.inl ⟨by simp, e, by simp, by simp⟩
            · rcases h7 : cfg.handler p
                  ⟨jid, (parseFloat start).map (fun q => ratMulInt q 1000)⟩ with e | u <;>
                simp only [h7]
              · exact Or.inl ⟨by simp, e, by simp, by simp⟩
              · exact Or.inr ⟨by simp, jid, headerString_ok h1, by simp, by simp⟩

/-- Claim C4: the retry specification serializes to a pipe-delimited string —
a bare count or countless-backoff object to the count, immediate backoff to
`count|immediate`, fixed to `count|fixed|interval`, exponential to
`count|exponential|exponent`. -/
theorem serializeRetry_spec (n i e : Int) :
    serializeRetry (Retry.num n) = toString n
    ∧ serializeRetry (Retry.obj n none) = toString n
    ∧ serializeRetry (Retry.obj n (some Backoff.immediateStr)) = toString n ++ "|immediate"
    ∧ serializeRetry (Retry.obj n (some (Backoff.fixed i)))
        = toString n ++ "|fixed|" ++ toString i
    ∧ serializeRetry (Retry.obj n (some (Backoff.exponential e)))
        = toString n ++ "|exponential|" ++ toString e := by
  refine ⟨rfl, rfl, ?_, ?_, ?_⟩ <;>
    simp only [serializeRetry, backoffString, strAppendAssoc] <;> rfl

/-- Claim C9: with no explicit option and no environment variable, the
effective `apiUrl` is fully determined by `mode` (direct → empty, dev-server →
the fixed local endpoint, production → the fixed public endpoint); an explicit
option always wins, and the environment variable wins over the mode default. -/
theorem resolveApiUrl_spec :
    (resolveApiUrl none none Mode.direct = ""
     ∧ resolveApiUrl none none Mode.devServer = "http://localhost:4747"
     ∧ resolveApiUrl none none Mode.production = "https://zeplo.to")
    ∧ (∀ (s : String) (envVar : Option String) (m : Mode), resolveApiUrl (some s) envVar m = s)
    ∧ (∀ (v : String) (m : Mode), resolveApiUrl none (some v) m = v) :=
  ⟨⟨rfl, rfl, rfl⟩, fun _ _ _ => rfl, fun _ _ => rfl⟩

/-- Claim C2 counterexample: with a non-direct mode and no configured token
the outbound headers carry neither the token header nor the direct-mode
identity headers, so "exactly one of the two, never neither" is false. This is
the configuration of the repository's own test, which asserts `headers: \x7b\x7d`. -/
theorem enqueueHeaders_xor_cex :
    ¬ ((hasTokenHeader (enqueueHeaders Mode.production none "u" 0) = true
        ∧ hasDirectHeaders (enqueueHeaders Mode.production none "u" 0) = false)
      ∨ (hasTokenHeader (enqueueHeaders Mode.production none "u" 0) = false
        ∧ hasDirectHeaders (enqueueHeaders Mode.production none "u" 0) = true)) := by
  decide

/-- Claim C2 (amended): the outbound headers never carry both the token header
and the direct-mode identity headers; the identity headers are present exactly
in direct mode, and the token header exactly in non-direct mode with a
non-empty token configured (so neither is present in non-direct mode without a
truthy token). -/
theorem enqueueHeaders_auth (mode : Mode) (token : Option String) (uuid : String)
    (nowMs : Nat) :
    (¬ (hasTokenHeader (enqueueHeaders mode token uuid nowMs) = true
        ∧ hasDirectHeaders (enqueueHeaders mode token uuid nowMs) = true))
    ∧ (hasDirectHeaders (enqueueHeaders mode token uuid nowMs) = true ↔ mode = Mode.direct)
    ∧ (hasTokenHeader (enqueueHeaders mode token uuid nowMs) = true
        ↔ mode ≠ Mode.direct ∧ ∃ t, token = some t ∧ t ≠ "") := by
  cases mode <;> rcases token with _ | t <;>
    simp [enqueueHeaders, hasTokenHeader, hasDirectHeaders, List.lookup]

/-- Claim C3 counterexample: with empty `apiUrl` and `baseUrl` the code
produces `"/route"`, not the spec's join of non-empty segments `"route"`. -/
theorem joinUrl_cex : joinUrl "" none "route" ≠ specJoinUrl "" none "route" := by
  decide

/-- Claim C3 (amended): the pre-query URL is the non-empty members of
`[apiUrl, baseUrl]` joined with `/`, always followed by `/` and the route; this
agrees with joining the non-empty members of `[apiUrl, baseUrl, route]`
whenever some prefix segment and the route are non-empty, and when `apiUrl`
and `baseUrl` are both empty the URL is the route with a leading slash. -/
theorem joinUrl_spec (a : String) (b : Option String) (r : String) :
    ((a ≠ "" ∨ b.getD "" ≠ "") → r ≠ "" → joinUrl a b r = specJoinUrl a b r)
    ∧ (a = "" → b.getD "" = "" → joinUrl a b r = "/" ++ r) := by
  constructor
  · intro hab hr
    by_cases ha : a = "" <;> by_cases hb : b.getD "" = "" <;>
      simp_all [joinUrl, specJoinUrl, nonEmptySegs, joinSlash, strAppendAssoc]
  · intro ha hb
    simp [joinUrl, specJoinUrl, nonEmptySegs, ha, hb, joinSlash]

/-- Claim C3 witness: at the test configuration both readings of the URL
agree, and with both prefix segments empty the URL keeps a leading slash. -/
theorem joinUrl_spec_witness :
    joinUrl "https://zeplo.to" none "route" = specJoinUrl "https://zeplo.to" none "route"
    ∧ joinUrl "" none "route" = "/" ++ "route" :=
  ⟨(joinUrl_spec "https://zeplo.to" none "route").1 (Or.inl (by decide)) (by decide),
   (joinUrl_spec "" none "route").2 rfl rfl⟩

/-- Claim C5 counterexample: with effective delay the plain number `0` and a
supplied empty trace, the query carries neither `_delay=0` nor `_trace=`
(both are falsy and dropped), so the claim fails at this input. -/
theorem queryParams_cex :
    ¬ (("_delay", "0") ∈ queryParams "test" (some "") (some (Delay.secs 0)) none
       ∧ ("_trace", "") ∈ queryParams "test" (some "") (some (Delay.secs 0)) none) := by
  decide

/-- Claim C5 (amended): `_env` is always present; `_delay=d` is present exactly
when the effective delay is a plain non-zero number `d`; `_delay_until` carries
the epoch milliseconds exactly when the effective delay is a `Date`; `_trace`
is present exactly when a non-empty trace is supplied. -/
theorem queryParams_spec (env : String) (trace : Option String)
    (delay : Option Delay) (retry : Option Retry) :
    ((queryParams env trace delay retry).lookup "_env" = some env)
    ∧ ((queryParams env trace delay retry).lookup "_delay"
        = match delay with
          | some (Delay.secs d) => if d = 0 then none else some (toString d)
          | _ => none)
    ∧ ((queryParams env trace delay retry).lookup "_delay_until"
        = match delay with
          | some (Delay.untilDate ms) => some (toString ms)
          | _ => none)
    ∧ ((queryParams env trace delay retry).lookup "_trace"
        = match trace with
          | some t => if t = "" then none else some t
          | none => none) := by
  rcases trace with _ | t <;>
    rcases delay with _ | dl <;>
    rcases retry with _ | rt <;>
    (try rcases dl with n | ms) <;>
    (try rcases rt with n2 | ⟨c, bo⟩) <;>
    simp only [queryParams, traceParams, delayParams, retryParams] <;>
    first
      | (split_ifs <;> simp_all [List.lookup])
      | simp_all [List.lookup]

/-- Claim C6: whenever the response status is at least 400, `enqueue`'s
response handling produces an uncaught error whose message contains the
serialized payload, the pre-query target URL, and the response body text. -/
theorem enqueueRespond_transport_error (call : EnqueueCall) (res : FetchResponse)
    (h : 400 ≤ res.status) :
    ∃ m, enqueueRespond call res = Except.error m
      ∧ containsStr m call.stringifiedPayload
      ∧ containsStr m call.url
      ∧ containsStr m res.text := by
  refine ⟨"Unexpected response while trying to enqueue \"" ++ call.stringifiedPayload ++
      "\" to " ++ call.url ++ ": " ++ res.text, ?_, ?_, ?_, ?_⟩
  · simp [enqueueRespond, h]
  · exact ⟨"Unexpected response while trying to enqueue \"",
      "\" to " ++ call.url ++ ": " ++ res.text, by simp [strAppendAssoc]⟩
  · exact ⟨"Unexpected response while trying to enqueue \"" ++ call.stringifiedPayload ++
      "\" to ", ": " ++ res.text, by simp [strAppendAssoc]⟩
  · exact ⟨"Unexpected response while trying to enqueue \"" ++ call.stringifiedPayload ++
      "\" to " ++ call.url ++ ": ", "", by simp [strAppendAssoc, strAppendEmpty]⟩

/-- Claim C6 witness: the repository's own 400-test — the error of enqueueing
`\x7bfoo:"bar"\x7d` to the default production URL when the service answers 400
with text `res.text`. -/
theorem enqueueRespond_transport_error_witness :
    ∃ m, enqueueRespond (enqueue cfgW payloadW noOpts "u" 0) resW400 = Except.error m
      ∧ containsStr m (enqueue cfgW payloadW noOpts "u" 0).stringifiedPayload
      ∧ containsStr m (enqueue cfgW payloadW noOpts "u" 0).url
      ∧ containsStr m resW400.text :=
  enqueueRespond_transport_error (enqueue cfgW payloadW noOpts "u" 0) resW400 (by decide)

/-- Claim C7: `enqueue` issues exactly one POST whose body is the serialized
payload, encrypted exactly when a truthy encryption secret is configured; on a
sub-400 response it resolves with the string `id` field of the response JSON
and fails whenever the response JSON lacks a string `id`. -/
theorem enqueue_single_post {Payload : Type} (cfg : EnqueueConfig Payload) (p : Payload)
    (opts : CallOptions) (uuid : String) (nowMs : Nat) :
    (enqueue cfg p opts uuid nowMs).requests = [(enqueue cfg p opts uuid nowMs).request]
    ∧ (enqueue cfg p opts uuid nowMs).request.method = "POST"
    ∧ (cfg.encryptionSecret = none ∨ cfg.encryptionSecret = some "" →
        (enqueue cfg p opts uuid nowMs).request.body = cfg.stringify p)
    ∧ (∀ s, cfg.encryptionSecret = some s → s ≠ "" →
        (enqueue cfg p opts uuid nowMs).request.body = cfg.encrypt (cfg.stringify p))
    ∧ (∀ res fields i, res.status < 400 → res.json = Except.ok (Json.obj fields) →
        fields.lookup "id" = some (Json.str i) →
        enqueueRespond (enqueue cfg p opts uuid nowMs) res = Except.ok i)
    ∧ (∀ res j, res.status < 400 → res.json = Except.ok j →
        (∀ fields i, j = Json.obj fields → fields.lookup "id" = some (Json.str i) → False) →
        ∃ e, enqueueRespond (enqueue cfg p opts uuid nowMs) res = Except.error e) := by
  refine ⟨rfl, rfl, ?_, ?_, ?_, ?_⟩
  · rintro (hs | hs) <;> simp [enqueue, encryptorEncrypt, hs]
  · intro s hs hne
    simp [enqueue, encryptorEncrypt, hs, hne]
  · intro res fields i hlt hj hid
    simp [enqueueRespond, Nat.not_le.mpr hlt, hj, parseIdObject, hid]
  · intro res j hlt hj hno
    simp only [enqueueRespond, if_neg (Nat.not_le.mpr hlt), hj]
    cases j with
    | obj fields =>
      rcases hl : fields.lookup "id" with _ | v
      · exact ⟨"response id is not a string", by simp [parseIdObject, hl]⟩
      · cases v <;>
          first
            | exact absurd hl (fun hh => hno fields _ rfl hh)
            | exact ⟨"response id is not a string", by simp [parseIdObject, hl]⟩
    | null => exact ⟨"response is not an object", by simp [parseIdObject]⟩
    | undef => exact ⟨"response is not an object", by simp [parseIdObject]⟩
    | bool b => exact ⟨"response is not an object", by simp [parseIdObject]⟩
    | num q => exact ⟨"response is not an object", by simp [parseIdObject]⟩
    | str s => exact ⟨"response is not an object", by simp [parseIdObject]⟩
    | arr l => exact ⟨"response is not an object", by simp [parseIdObject]⟩

/-- Claim C7 witness: the repository's success test — default configuration,
payload `\x7bfoo:"bar"\x7d`, response JSON `\x7bid:"foo"\x7d`: the body is the plain
serialization and the call resolves with `"foo"`. -/
theorem enqueue_single_post_witness :
    (enqueue cfgW payloadW noOpts "u" 0).request.body = cfgW.stringify payloadW
    ∧ enqueueRespond (enqueue cfgW payloadW noOpts "u" 0) resWOK = Except.ok "foo" :=
  ⟨(enqueue_single_post cfgW payloadW noOpts "u" 0).2.2.1 (Or.inl rfl),
   (enqueue_single_post cfgW payloadW noOpts "u" 0).2.2.2.2.1 resWOK
     [("id", Json.str "foo")] "foo" (by decide) rfl rfl⟩

/-- Claim C8 counterexample: at the round-trip test input the handler metadata
is not `\x7bjobId:"foo", start: Date(2790000)\x7d` — `parseFloat` reads only the
leading `1970` of `"1970-01-01T00:32:50.000Z"` (that instant is 1970 epoch
seconds, not 2790), so the start is `Date(1970000)`. -/
theorem respondTo_roundtrip_cex :
    ¬ ((respondTo jsonCfg bodyRT headersRT).handlerCalls.map (fun pm => pm.2)
        = [⟨"foo", some (ratOfInt 2790000)⟩]) := by
  decide

/-- Claim C8 (amended): given headers `x-zeplo-id: "foo"` and
`x-zeplo-start: "1970-01-01T00:32:50.000Z"` (1970 epoch seconds) and body
`stringify(\x7bfoo:"bar"\x7d)`, `respondTo` invokes the handler once with
`(\x7bfoo:"bar"\x7d, \x7bjobId:"foo", start: Date(1970000)\x7d)` — `parseFloat` of the
header times 1000 milliseconds — and returns status 200 with body
`\x7bid:"foo"\x7d`. -/
theorem respondTo_roundtrip :
    (respondTo jsonCfg bodyRT headersRT).status = 200
    ∧ (respondTo jsonCfg bodyRT headersRT).body = RespBody.idObj "foo"
    ∧ ((respondTo jsonCfg bodyRT headersRT).handlerCalls.map (fun pm => pm.2)
        = [⟨"foo", some (ratOfInt 1970000)⟩])
    ∧ ((respondTo jsonCfg bodyRT headersRT).handlerCalls.map (fun pm => pm.1)
        = [Json.obj [("foo", Json.str "bar")]]) := by
  refine ⟨by decide, by decide, by decide, ?_⟩
  rfl

/-- Claim C10: with valid string `x-zeplo-id` and `x-zeplo-start` headers but a
non-string raw body, `respondTo` returns a 500 response and never invokes the
handler. -/
theorem respondTo_nonstring_body {Payload : Type} (cfg : RespondConfig Payload)
    (headers : List (String × Json)) (jid start : String)
    (hid : headers.lookup "x-zeplo-id" = some (Json.str jid))
    (hstart : headers.lookup "x-zeplo-start" = some (Json.str start))
    (body : Json) (hb : ∀ s, body ≠ Json.str s) :
    (respondTo cfg body headers).status = 500
    ∧ (respondTo cfg body headers).handlerCalls = [] := by
  simp only [respondTo, headerString, hid, hstart]
  cases body <;> simp_all

/-- Claim C10 witness: the round-trip test headers with the number `5` as raw
body yield a 500 and no handler call. -/
theorem respondTo_nonstring_body_witness :
    (respondTo jsonCfg (Json.num 5) headersRT).status = 500
    ∧ (respondTo jsonCfg (Json.num 5) headersRT).handlerCalls = [] :=
  respondTo_nonstring_body jsonCfg headersRT "foo" "1970-01-01T00:32:50.000Z" rfl rfl
    (Json.num 5) (fun _ h => Json.noConfusion h)

end Zeplo
